import Mathlib

/-!
Verification development for the relicxs-workers job system.

Shallow embedding of the queue layer, priority router, job validation,
dead-letter handling, worker loops and the jobgroup subsystem, with
theorems checking the natural-language specification against the code.
-/

namespace Relicxs

/-! ## JavaScript-value helpers

Optional string fields model JS object fields that may be `undefined`.
JS truthiness for strings: `undefined` and `''` are falsy.
-/

/-- Truthiness of an optional JS string (`undefined` and `''` are falsy). -/
def truthy : Option String → Bool
  | some s => s ≠ ""
  | none => false

/-- Model of the JS expression `a || b` on two possibly-undefined strings. -/
def orStr (a b : Option String) : Option String :=
  if truthy a then a else b

/-- Model of `a || d` where `d` is a string literal default. -/
def orDefault (a : Option String) (d : String) : String :=
  match a with
  | some s => if s = "" then d else s
  | none => d

/-- ASCII lowercase of a string, as `String.prototype.toLowerCase` on the
identifiers used by this codebase. -/
def lowerStr (s : String) : String :=
  ⟨s.data.map Char.toLower⟩

/-- Model of `String.prototype.startsWith`. -/
def strHasStart (s p : String) : Bool :=
  p.data.isPrefixOf s.data

/-- Drop the first `n` characters of a string (`String.prototype.slice(n)`). -/
def sliceFrom (s : String) (n : Nat) : String :=
  ⟨s.data.drop n⟩

/-! ## Queue payload: the Job object

A transient queue payload, with every field the embedded functions read.
Absent fields are `none` (JS `undefined`). -/

/-- Job object as carried on the queues; optional fields model `undefined`. -/
structure Job where
  job_type : Option String := none
  type : Option String := none
  jobType : Option String := none
  processing_type : Option String := none
  processingType : Option String := none
  tenant_id : Option String := none
  tenantId : Option String := none
  asset_id : Option String := none
  batch_id : Option String := none
  file_purpose : Option String := none
  input_extension : Option String := none
  code : Option String := none
  field : Option String := none
deriving DecidableEq, Repr

/-! ## src/jobs/job.priority.js -/

/-- The PRIORITY enum of `job.priority.js` (`instant`, `standard`, `batch`). -/
inductive Priority where
  | instant
  | standard
  | batch
deriving DecidableEq, Repr

/-- Embedding of `getJobPriority` from `src/jobs/job.priority.js`: lowercases
`processing_type || processingType || ''` and maps `instant`/`individual` to
instant, `standard` to standard, `jobgroup` to batch, all else to standard. -/
def getJobPriority (job : Job) : Priority :=
  let p := lowerStr (orDefault (orStr job.processing_type job.processingType) "")
  if p = "instant" ∨ p = "individual" then .instant
  else if p = "standard" then .standard
  else if p = "jobgroup" then .batch
  else .standard

/-! ## src/priorities/priority.constants.js -/

/-- Queue key `jobs:machinist:instant`. -/
def MACHINIST_QUEUE_INSTANT : String := "jobs:machinist:instant"

/-- Queue key `jobs:machinist:standard`. -/
def MACHINIST_QUEUE_STANDARD : String := "jobs:machinist:standard"

/-- Queue key bound to the constant `MACHINIST_QUEUE_JOBGROUP` in
`priority.constants.js`; its value is the string `jobs:machinist:batch`. -/
def MACHINIST_QUEUE_JOBGROUP : String := "jobs:machinist:batch"

/-- Queue key `jobs:archivist:instant`. -/
def ARCHIVIST_QUEUE_INSTANT : String := "jobs:archivist:instant"

/-- Queue key `jobs:archivist:standard`. -/
def ARCHIVIST_QUEUE_STANDARD : String := "jobs:archivist:standard"

/-- Queue key `jobs:archivist:jobgroup`. -/
def ARCHIVIST_QUEUE_JOBGROUP : String := "jobs:archivist:jobgroup"

/-- The queue-key set named by the specification in section 4.1: the five
namespaced job queues of the two workers plus the two `dlq:` keys. -/
def specQueueKeySet : List String :=
  [ "jobs:machinist:instant", "jobs:machinist:standard",
    "jobs:archivist:instant", "jobs:archivist:standard",
    "jobs:archivist:jobgroup", "dlq:machinist", "dlq:archivist" ]

/-- The set of keys the router can actually return (one per worker and
priority, machinist batch lane included). -/
def routerQueueKeySet : List String :=
  [ MACHINIST_QUEUE_INSTANT, MACHINIST_QUEUE_STANDARD, MACHINIST_QUEUE_JOBGROUP,
    ARCHIVIST_QUEUE_INSTANT, ARCHIVIST_QUEUE_STANDARD, ARCHIVIST_QUEUE_JOBGROUP ]

/-! ## src/priorities/priority.validation.js -/

/-- Embedding of `validateJobHasBaseFields`: requires a truthy
`tenant_id`/`tenantId` and a truthy discriminator field; throws otherwise. -/
def validateJobHasBaseFields (job : Job) : Except String Unit :=
  if ¬ (truthy job.tenant_id ∨ truthy job.tenantId) then
    .error "Invalid job: missing tenant_id"
  else if ¬ (truthy job.job_type ∨ truthy job.jobType ∨
      truthy job.processing_type ∨ truthy job.processingType) then
    .error "Invalid job: missing job_type or processing_type"
  else
    .ok ()

/-! ## Priority router (src/priorities/priority.router.js) -/

/-- Embedding of `resolveQueueForJob`: validates base fields, derives the
priority, lowercases `job_type || type || ''`, and maps the worker prefix and
priority to a queue key; unknown worker prefixes raise. -/
def resolveQueueForJob (job : Job) : Except String String :=
  match validateJobHasBaseFields job with
  | .error e => .error e
  | .ok _ =>
    let priority := getJobPriority job
    let ty := lowerStr (orDefault (orStr job.job_type job.type) "")
    if strHasStart ty "machinist" then
      .ok (match priority with
        | .instant => MACHINIST_QUEUE_INSTANT
        | .standard => MACHINIST_QUEUE_STANDARD
        | .batch => MACHINIST_QUEUE_JOBGROUP)
    else if strHasStart ty "archivist" then
      .ok (match priority with
        | .instant => ARCHIVIST_QUEUE_INSTANT
        | .standard => ARCHIVIST_QUEUE_STANDARD
        | .batch => ARCHIVIST_QUEUE_JOBGROUP)
    else
      .error ("[PRIORITY_ROUTER] Unknown job type: " ++ ty)

/-- Machinist job whose derived priority is the jobgroup (batch) priority. -/
def machinistJobgroupJob : Job :=
  { job_type := some "machinist", processing_type := some "jobgroup",
    tenant_id := some "11111111-1111-4111-8111-111111111111" }

example : getJobPriority machinistJobgroupJob = .batch := by decide

/-- Claim C1 (counterexample): a machinist job whose derived priority is the
jobgroup priority is not rejected by `resolveQueueForJob`; it is routed to the
key `jobs:machinist:batch`, which lies outside the queue-key set of
section 4.1 of the specification. -/
theorem c1_counterexample :
    resolveQueueForJob machinistJobgroupJob = .ok "jobs:machinist:batch" ∧
      "jobs:machinist:batch" ∉ specQueueKeySet := by
  constructor
  · rfl
  · decide

/-- Claim C1 (amended): every queue key returned by `resolveQueueForJob`
belongs to the six-key router set (the five keys of section 4.1's job queues
plus `jobs:machinist:batch`), and a machinist job whose derived priority is
the jobgroup priority is routed to `jobs:machinist:batch` rather than
rejected. -/
theorem c1_amended_router_key_range (job : Job) (q : String)
    (h : resolveQueueForJob job = .ok q) :
    q ∈ routerQueueKeySet ∧
      (strHasStart (lowerStr (orDefault (orStr job.job_type job.type) ""))
          "machinist" = true →
        getJobPriority job = .batch → q = "jobs:machinist:batch") := by
  unfold resolveQueueForJob at h
  cases hv : validateJobHasBaseFields job with
  | error e => rw [hv] at h; exact absurd h (by simp)
  | ok u =>
    rw [hv] at h
    simp only at h
    split at h
    · cases hp : getJobPriority job <;>
        rw [hp] at h <;> simp only [Except.ok.injEq] at h <;> subst h <;>
        refine ⟨by decide, ?_⟩ <;> intro _ hbatch
      · exact absurd hbatch (by simp [hp])
      · exact absurd hbatch (by simp [hp])
      · rfl
    · split at h
      · cases hp : getJobPriority job <;>
          rw [hp] at h <;> simp only [Except.ok.injEq] at h <;> subst h <;>
          exact ⟨by decide, fun hm _ => by simp_all⟩
      · exact absurd h (by simp)

/-- Witness for `c1_amended_router_key_range` at the concrete machinist
jobgroup job. -/
theorem c1_amended_router_key_range_witness :
    "jobs:machinist:batch" ∈ routerQueueKeySet ∧
      (strHasStart (lowerStr (orDefault
          (orStr machinistJobgroupJob.job_type machinistJobgroupJob.type) ""))
          "machinist" = true →
        getJobPriority machinistJobgroupJob = .batch →
        "jobs:machinist:batch" = "jobs:machinist:batch") :=
  c1_amended_router_key_range machinistJobgroupJob "jobs:machinist:batch" rfl

/-- Claim C8 (evaluation): `getJobPriority` maps `instant`/`individual` to
instant, `standard` to standard, `jobgroup` to batch, and missing or unknown
values to standard, but maps `processing_type = "batch"` to standard, in
contradiction with the claim and with the function's own documentation
comment, which states `'jobgroup' | 'batch' => BATCH`. -/
theorem c8_getJobPriority_batch_divergence :
    getJobPriority { processing_type := some "instant" } = .instant ∧
    getJobPriority { processing_type := some "individual" } = .instant ∧
    getJobPriority { processing_type := some "standard" } = .standard ∧
    getJobPriority { processing_type := some "jobgroup" } = .batch ∧
    getJobPriority {} = .standard ∧
    getJobPriority { processing_type := some "other" } = .standard ∧
    getJobPriority { processing_type := some "batch" } = .standard ∧
    Priority.standard ≠ Priority.batch := by decide

/-! ## src/schema/job-schemas.js and src/errors/ValidationError.js -/

/-- Typed validation error as constructed by `job-schemas.js`: the
`ValidationError` constructor takes `(message, field, code)` positionally. -/
structure ValidationErr where
  message : String
  field : Option String
  code : String
deriving DecidableEq, Repr

/-- Hexadecimal-digit test for the UUID regular expression. -/
def isHexChar (c : Char) : Bool :=
  c.isDigit || ('a' ≤ c && c ≤ 'f') || ('A' ≤ c && c ≤ 'F')

/-- Character admissible at position `i` of a canonical UUIDv4 string, per
the regular expression `UUID_REGEX` of `job-schemas.js`. -/
def uuidCharOk (i : Nat) (c : Char) : Bool :=
  if i = 8 || i = 13 || i = 18 || i = 23 then c = '-'
  else if i = 14 then c = '4'
  else if i = 19 then
    c = '8' || c = '9' || c = 'a' || c = 'b' || c = 'A' || c = 'B'
  else isHexChar c

/-- Embedding of `UUID_REGEX.test`: 36 characters in the canonical UUIDv4
shape, case-insensitive. -/
def isUuidV4 (s : String) : Bool :=
  s.data.length = 36 && s.data.enum.all (fun p => uuidCharOk p.1 p.2)

/-- Embedding of `assertUUID`: passes when the value is a truthy string
matching `UUID_REGEX`; otherwise throws an `INVALID_UUID` validation error. -/
def assertUUID (name : String) (value : Option String) :
    Except ValidationErr Unit :=
  match value with
  | some s =>
    if s ≠ "" && isUuidV4 s then .ok ()
    else .error ⟨"INVALID_UUID", some name, name ++ " must be a valid UUID v4"⟩
  | none =>
    .error ⟨"INVALID_UUID", some name, name ++ " must be a valid UUID v4"⟩

/-- Embedding of `assertIn`: passes when the value is present and belongs to
the allowed list. -/
def assertIn (name : String) (value : Option String) (allowed : List String) :
    Except ValidationErr Unit :=
  match value with
  | some s =>
    if s ∈ allowed then .ok ()
    else .error ⟨"INVALID_VALUE", some name,
      name ++ " must be one of: " ++ String.intercalate ", " allowed⟩
  | none =>
    .error ⟨"INVALID_VALUE", some name,
      name ++ " must be one of: " ++ String.intercalate ", " allowed⟩

/-- Embedding of `assertString`: requires a non-empty string of length at
most `max` characters. -/
def assertString (name : String) (value : Option String) (max : Nat) :
    Except ValidationErr Unit :=
  match value with
  | none =>
    .error ⟨"INVALID_STRING", some name, name ++ " must be a non-empty string"⟩
  | some s =>
    if s.length = 0 then
      .error ⟨"INVALID_STRING", some name, name ++ " must be a non-empty string"⟩
    else if s.length > max then
      .error ⟨"STRING_TOO_LONG", some name,
        name ++ " exceeds " ++ toString max ++ " chars"⟩
    else .ok ()

/-- Allowed `file_purpose` values for machinist jobs. -/
def filePurposeAllowed : List String :=
  ["preservation", "viewing", "production", "restoration"]

/-- Embedding of `validateMachinistJob`: UUID checks on `tenant_id`,
`asset_id` and (when present and non-empty) `batch_id`, `file_purpose` in its
enumerated set, and `input_extension` a non-empty string of at most 256
characters; the job itself is returned on success. -/
def validateMachinistJob (job : Job) : Except ValidationErr Job :=
  match assertUUID "tenant_id" job.tenant_id with
  | .error e => .error e
  | .ok _ =>
  match assertUUID "asset_id" job.asset_id with
  | .error e => .error e
  | .ok _ =>
  match (match job.batch_id with
         | some s => if s = "" then Except.ok () else assertUUID "batch_id" job.batch_id
         | none => Except.ok ()) with
  | .error e => .error e
  | .ok _ =>
  match assertIn "file_purpose" job.file_purpose filePurposeAllowed with
  | .error e => .error e
  | .ok _ =>
  match assertString "input_extension" job.input_extension 256 with
  | .error e => .error e
  | .ok _ => .ok job

/-- Embedding of `validateArchivistJob` of `job-schemas.js`: identifier rules
as for machinist, and `processing_type` in
`{instant, standard, jobgroup, batch}`. -/
def validateArchivistJob (job : Job) : Except ValidationErr Job :=
  match assertUUID "tenant_id" job.tenant_id with
  | .error e => .error e
  | .ok _ =>
  match assertUUID "asset_id" job.asset_id with
  | .error e => .error e
  | .ok _ =>
  match (match job.batch_id with
         | some s => if s = "" then Except.ok () else assertUUID "batch_id" job.batch_id
         | none => Except.ok ()) with
  | .error e => .error e
  | .ok _ =>
  match assertIn "processing_type" job.processing_type
      ["instant", "standard", "jobgroup", "batch"] with
  | .error e => .error e
  | .ok _ => .ok job

/-! ## src/security/sanitize.js -/

/-- The extension allow-list `EXT_WHITELIST` of `sanitize.js`. -/
def EXT_WHITELIST : List String := ["jpg", "jpeg", "png", "tiff", "tif"]

/-- Embedding of `sanitizeExt`: strip one leading dot, lowercase, and return
the result when allow-listed, the empty string otherwise. -/
def sanitizeExt (ext : String) : String :=
  let clean := lowerStr (if strHasStart ext "." then sliceFrom ext 1 else ext)
  if clean ∈ EXT_WHITELIST then clean else ""

/-- Embedding of the machinist pipeline guard
`if (job.input_extension && !sanitizeExt(job.input_extension)) throw ...`
found in the machinist pipeline modules. -/
def machinistExtGuard (job : Job) : Except String Unit :=
  match job.input_extension with
  | some s =>
    if s ≠ "" && sanitizeExt s = "" then
      .error "[MACHINIST][PIPELINE] Unsafe or unsupported input_extension"
    else .ok ()
  | none => .ok ()

/-- Machinist job with a disallowed extension but otherwise valid fields. -/
def heicJob : Job :=
  { tenant_id := some "11111111-1111-4111-8111-111111111111",
    asset_id := some "22222222-2222-4222-8222-222222222222",
    file_purpose := some "viewing",
    input_extension := some "heic" }

/-- Claim C9 (counterexample): the machinist validator accepts a job whose
`input_extension` is `heic`, which normalizes outside the extension
allow-list; the validator does not apply the allow-list at all. -/
theorem c9_counterexample :
    validateMachinistJob heicJob = .ok heicJob ∧ sanitizeExt "heic" = "" ∧
      lowerStr "heic" ∉ EXT_WHITELIST := by
  refine ⟨rfl, rfl, by decide⟩

/-- Helper: a passing `assertString` yields a non-empty string within the
length bound. -/
theorem assertString_ok (name : String) (v : Option String) (max : Nat)
    (h : assertString name v max = .ok ()) :
    ∃ s, v = some s ∧ 0 < s.length ∧ s.length ≤ max := by
  cases v with
  | none => exact absurd h (by simp [assertString])
  | some s =>
    refine ⟨s, rfl, ?_⟩
    by_cases h0 : s.length = 0
    · rw [assertString, if_pos h0] at h; exact absurd h (by simp)
    · by_cases h1 : s.length > max
      · rw [assertString, if_neg h0, if_pos h1] at h; exact absurd h (by simp)
      · exact ⟨Nat.pos_of_ne_zero h0, Nat.le_of_not_lt h1⟩

/-- Claim C9 (amended): for every job accepted by the machinist validator,
`input_extension` is a non-empty string of at most 256 characters, with no
allow-list requirement; the allow-list after case-folding and leading-dot
stripping is enforced separately by the machinist pipeline guard, which
rejects with an untyped error (not a `ValidationError`) any job whose
non-empty extension normalizes outside the allow-list. -/
theorem c9_amended_validator_and_guard (job j2 : Job)
    (h : validateMachinistJob job = .ok j2) :
    (∃ s, job.input_extension = some s ∧ 0 < s.length ∧ s.length ≤ 256) ∧
    (∀ s, job.input_extension = some s → sanitizeExt s = "" →
      machinistExtGuard job =
        .error "[MACHINIST][PIPELINE] Unsafe or unsupported input_extension") := by
  unfold validateMachinistJob at h
  cases h1 : assertUUID "tenant_id" job.tenant_id with
  | error e => rw [h1] at h; exact absurd h (by simp)
  | ok u1 =>
  rw [h1] at h
  cases h2 : assertUUID "asset_id" job.asset_id with
  | error e => rw [h2] at h; exact absurd h (by simp)
  | ok u2 =>
  rw [h2] at h
  cases h3 : (match job.batch_id with
         | some s => if s = "" then Except.ok () else assertUUID "batch_id" job.batch_id
         | none => Except.ok ()) with
  | error e => rw [h3] at h; exact absurd h (by simp)
  | ok u3 =>
  rw [h3] at h
  cases h4 : assertIn "file_purpose" job.file_purpose filePurposeAllowed with
  | error e => rw [h4] at h; exact absurd h (by simp)
  | ok u4 =>
  rw [h4] at h
  cases h5 : assertString "input_extension" job.input_extension 256 with
  | error e => rw [h5] at h; exact absurd h (by simp)
  | ok u5 =>
  obtain ⟨s, hs, hpos, hle⟩ := assertString_ok _ _ _ h5
  refine ⟨⟨s, hs, hpos, hle⟩, ?_⟩
  intro t ht hsan
  rw [hs] at ht
  cases ht
  have hne : s ≠ "" := by
    intro he; rw [he] at hpos; exact absurd hpos (by decide)
  unfold machinistExtGuard
  rw [hs]
  simp [hne, hsan]

/-- Witness for `c9_amended_validator_and_guard` at the concrete `heic` job. -/
theorem c9_amended_validator_and_guard_witness :
    (∃ s, heicJob.input_extension = some s ∧ 0 < s.length ∧ s.length ≤ 256) ∧
    (∀ s, heicJob.input_extension = some s → sanitizeExt s = "" →
      machinistExtGuard heicJob =
        .error "[MACHINIST][PIPELINE] Unsafe or unsupported input_extension") :=
  c9_amended_validator_and_guard heicJob heicJob rfl

/-! ## Queue layer: the external list store (src/core/redis.js)

A raw element on a list is either a string that parses as a job
(`JSON.parse` succeeds) or an unparsable string. The store is an
association list from key to list of elements; the head of each list is
its left end, so `rPush` appends and `lPop` takes the head. -/

/-- Raw list element: parsable job payload or an unparsable string. -/
inductive RawElem where
  | good (j : Job)
  | bad (s : String)
deriving DecidableEq, Repr

/-- External list store: keyed lists of raw elements. -/
abbrev Store := List (String × List RawElem)

/-- Read the list at a key (an absent key reads as the empty list). -/
def storeGet (s : Store) (k : String) : List RawElem :=
  match s with
  | [] => []
  | (k2, v) :: rest => if k2 = k then v else storeGet rest k

/-- Write the list at a key. -/
def storeSet (s : Store) (k : String) (v : List RawElem) : Store :=
  match s with
  | [] => [(k, v)]
  | (k2, v2) :: rest =>
    if k2 = k then (k2, v) :: rest else (k2, v2) :: storeSet rest k v

/-- Model of `RPUSH key e`: append on the right. -/
def rPush (s : Store) (k : String) (e : RawElem) : Store :=
  storeSet s k (storeGet s k ++ [e])

theorem storeGet_storeSet_self (s : Store) (k : String) (v : List RawElem) :
    storeGet (storeSet s k v) k = v := by
  induction s with
  | nil => simp [storeSet, storeGet]
  | cons p rest ih =>
    obtain ⟨k2, v2⟩ := p
    by_cases hk : k2 = k
    · simp [storeSet, storeGet, hk]
    · simp [storeSet, storeGet, hk, ih]

theorem storeGet_storeSet_ne (s : Store) (k k2 : String) (v : List RawElem)
    (hne : k2 ≠ k) : storeGet (storeSet s k v) k2 = storeGet s k2 := by
  have hne2 : k ≠ k2 := Ne.symm hne
  induction s with
  | nil => simp [storeSet, storeGet, hne2]
  | cons p rest ih =>
    obtain ⟨k3, v3⟩ := p
    by_cases hk : k3 = k
    · subst hk
      simp [storeSet, storeGet, hne2]
    · simp [storeSet, storeGet, hk, ih]

/-- Embedding of `popJob` from `src/core/redis.js`: `LPOP` the key; a missing
element yields nothing; a parsable element is returned; a parse failure is
logged and `null` is returned — the raw element is consumed and discarded,
and no other key of the store is touched. -/
def popJob (s : Store) (k : String) : Option Job × Store :=
  match storeGet s k with
  | [] => (none, s)
  | e :: rest =>
    match e with
    | .good j => (some j, storeSet s k rest)
    | .bad _ => (none, storeSet s k rest)

/-! ## Machinist worker loop (src/workers/machinist/machinist.worker.js) -/

/-- The `DLQ_QUEUE` constant of `src/workers/dlq/dlq.constants.js`. -/
def DLQ_QUEUE : String := "image-processing:failed"

/-- The machinist worker's `LISTEN_QUEUES`, in `BRPOP` argument order. -/
def machinistListenQueues : List String :=
  [MACHINIST_QUEUE_INSTANT, MACHINIST_QUEUE_STANDARD, MACHINIST_QUEUE_JOBGROUP]

/-- Model of `BRPOP keys timeout`: return the right-most element of the first
nonempty key in argument order, or nothing when all are empty (timeout). -/
def brPop (s : Store) (ks : List String) : Option (String × RawElem) × Store :=
  match ks with
  | [] => (none, s)
  | k :: rest =>
    match (storeGet s k).getLast? with
    | some e => (some (k, e), storeSet s k (storeGet s k).dropLast)
    | none => brPop s rest

/-- Outcome of one iteration of the machinist worker loop. -/
inductive MachinistOutcome where
  | timeout
  | parseFailed (raw : String)
  | dispatched (queue : String) (j : Job)
deriving DecidableEq, Repr

/-- One iteration of `startMachinistWorker`: `BRPOP` over the listen queues;
on timeout continue; on JSON parse failure push the raw element onto
`DLQ_QUEUE` (`image-processing:failed`) and continue; otherwise dispatch by
source queue key (handler effects are outside this model). -/
def machinistIteration (s : Store) : MachinistOutcome × Store :=
  match brPop s machinistListenQueues with
  | (none, s1) => (.timeout, s1)
  | (some (k, e), s1) =>
    match e with
    | .bad raw => (.parseFailed raw, rPush s1 DLQ_QUEUE (.bad raw))
    | .good j => (.dispatched k j, s1)

/-! ## Archivist worker loop (archivist.worker.js)

Each iteration of `startArchivistPollingLoop` tries the instant queue, then
the standard queue, then the batch (jobgroup) queue, dequeuing at most one
job from each via `popJob` and dispatching it. The loop is modeled as a
small-step machine whose phase names the queue about to be tried; one source
iteration is three consecutive steps starting at the instant phase. -/

/-- Scan phase of the archivist polling loop. -/
inductive ArchPhase where
  | phInstant
  | phStandard
  | phBatch
deriving DecidableEq, Repr

/-- Queue key tried during a phase. -/
def phaseQueue : ArchPhase → String
  | .phInstant => ARCHIVIST_QUEUE_INSTANT
  | .phStandard => ARCHIVIST_QUEUE_STANDARD
  | .phBatch => ARCHIVIST_QUEUE_JOBGROUP

/-- Phase order within an iteration (batch wraps to the next iteration). -/
def nextPhase : ArchPhase → ArchPhase
  | .phInstant => .phStandard
  | .phStandard => .phBatch
  | .phBatch => .phInstant

/-- State of the archivist loop: the store plus the phase about to run. -/
structure ArchState where
  store : Store
  phase : ArchPhase
deriving DecidableEq, Repr

/-- One step of the archivist loop: dequeue from the current phase's queue
(dispatching the job when one parses) and advance to the next phase. -/
def archStep (st : ArchState) : ArchState × Option (ArchPhase × Job) :=
  let r := popJob st.store (phaseQueue st.phase)
  (⟨r.2, nextPhase st.phase⟩, r.1.map (fun jb => (st.phase, jb)))

/-- Reachability along archivist loop steps. -/
def archReach : ArchState → ArchState → Prop :=
  Relation.ReflTransGen (fun a b => (archStep a).1 = b)

/-- Distinct jobs used for the scheduling counterexample. -/
def jobA : Job := { tenant_id := some "t", asset_id := some "a1" }

/-- Second instant job of the scheduling counterexample. -/
def jobB : Job := { tenant_id := some "t", asset_id := some "a2" }

/-- Standard-queue job of the scheduling counterexample. -/
def jobC : Job := { tenant_id := some "t", asset_id := some "a3" }

/-- Start state: two instant jobs and one standard job, iteration start. -/
def archC3Start : ArchState :=
  ⟨[(ARCHIVIST_QUEUE_INSTANT, [.good jobA, .good jobB]),
    (ARCHIVIST_QUEUE_STANDARD, [.good jobC])], .phInstant⟩

/-- State after one step of the loop from `archC3Start`. -/
def archC3Mid : ArchState :=
  ⟨[(ARCHIVIST_QUEUE_INSTANT, [.good jobB]),
    (ARCHIVIST_QUEUE_STANDARD, [.good jobC])], .phStandard⟩

/-- Claim C3 (counterexample): in the archivist loop a state is reachable in
which a job is dispatched from the standard queue while the instant queue is
nonempty — the loop takes one job from each queue per iteration instead of
strict priority. -/
theorem c3_counterexample :
    archReach archC3Start archC3Mid ∧
    (archStep archC3Mid).2 = some (.phStandard, jobC) ∧
    storeGet archC3Mid.store ARCHIVIST_QUEUE_INSTANT ≠ [] := by
  refine ⟨Relation.ReflTransGen.single ?_, rfl, by decide⟩
  rfl

/-- Claim C3 (amended): the machinist worker's blocking pop is strictly
prioritized — an element is returned from the standard queue only when the
instant queue is empty, and from the batch queue only when both higher
queues are empty. The archivist loop scans its three queues in the priority
order instant, standard, jobgroup, taking at most one job per queue per
iteration: every dispatched job comes from the queue of the current scan
phase, phases advance cyclically, no other queue is modified by a step, and
a nonempty instant queue whose head parses is always served at the start of
an iteration; a lower-priority queue may however yield a job in the same
iteration while the instant queue still holds further jobs. -/
theorem c3_amended_scheduling
    (s : Store) (st : ArchState) :
    (∀ e s1 k, brPop s machinistListenQueues = (some (k, e), s1) →
      (k = MACHINIST_QUEUE_INSTANT ∨
       (k = MACHINIST_QUEUE_STANDARD ∧
         storeGet s MACHINIST_QUEUE_INSTANT = []) ∨
       (k = MACHINIST_QUEUE_JOBGROUP ∧
         storeGet s MACHINIST_QUEUE_INSTANT = [] ∧
         storeGet s MACHINIST_QUEUE_STANDARD = []))) ∧
    (∀ p j, (archStep st).2 = some (p, j) → p = st.phase) ∧
    ((archStep st).1.phase = nextPhase st.phase) ∧
    (∀ k, k ≠ phaseQueue st.phase →
      storeGet (archStep st).1.store k = storeGet st.store k) ∧
    (∀ j rest, st.phase = .phInstant →
      storeGet st.store ARCHIVIST_QUEUE_INSTANT = .good j :: rest →
      (archStep st).2 = some (.phInstant, j)) := by
  refine ⟨?_, ?_, rfl, ?_, ?_⟩
  · intro e s1 k h
    simp only [machinistListenQueues, brPop] at h
    cases h1 : (storeGet s MACHINIST_QUEUE_INSTANT).getLast? with
    | some e1 =>
      rw [h1] at h
      simp only [Prod.mk.injEq, Option.some.injEq] at h
      exact Or.inl h.1.1.symm
    | none =>
      rw [h1] at h
      cases h2 : (storeGet s MACHINIST_QUEUE_STANDARD).getLast? with
      | some e2 =>
        rw [h2] at h
        simp only [Prod.mk.injEq, Option.some.injEq] at h
        exact Or.inr (Or.inl ⟨h.1.1.symm, List.getLast?_eq_none_iff.mp h1⟩)
      | none =>
        rw [h2] at h
        cases h3 : (storeGet s MACHINIST_QUEUE_JOBGROUP).getLast? with
        | some e3 =>
          rw [h3] at h
          simp only [Prod.mk.injEq, Option.some.injEq] at h
          exact Or.inr (Or.inr ⟨h.1.1.symm, List.getLast?_eq_none_iff.mp h1,
            List.getLast?_eq_none_iff.mp h2⟩)
        | none => rw [h3] at h; simp at h
  · intro p j h
    simp only [archStep] at h
    cases hp : (popJob st.store (phaseQueue st.phase)).1 with
    | none => rw [hp] at h; simp at h
    | some jb =>
      rw [hp] at h
      simp only [Option.map_some', Option.some.injEq, Prod.mk.injEq] at h
      exact h.1.symm
  · intro k hk
    show storeGet (popJob st.store (phaseQueue st.phase)).2 k = _
    unfold popJob
    cases hq : storeGet st.store (phaseQueue st.phase) with
    | nil => rfl
    | cons e rest =>
      cases e <;> simp only [] <;> exact storeGet_storeSet_ne _ _ _ _ hk
  · intro j rest hph hq
    obtain ⟨sto, ph⟩ := st
    simp only at hph hq
    subst hph
    simp [archStep, popJob, phaseQueue, hq]

/-- Witness for `c3_amended_scheduling` at a concrete store and state. -/
theorem c3_amended_scheduling_witness :
    (∀ e s1 k,
      brPop archC3Start.store machinistListenQueues = (some (k, e), s1) →
      (k = MACHINIST_QUEUE_INSTANT ∨
       (k = MACHINIST_QUEUE_STANDARD ∧
         storeGet archC3Start.store MACHINIST_QUEUE_INSTANT = []) ∨
       (k = MACHINIST_QUEUE_JOBGROUP ∧
         storeGet archC3Start.store MACHINIST_QUEUE_INSTANT = [] ∧
         storeGet archC3Start.store MACHINIST_QUEUE_STANDARD = []))) ∧
    (∀ p j, (archStep archC3Start).2 = some (p, j) → p = archC3Start.phase) ∧
    ((archStep archC3Start).1.phase = nextPhase archC3Start.phase) ∧
    (∀ k, k ≠ phaseQueue archC3Start.phase →
      storeGet (archStep archC3Start).1.store k =
        storeGet archC3Start.store k) ∧
    (∀ j rest, archC3Start.phase = .phInstant →
      storeGet archC3Start.store ARCHIVIST_QUEUE_INSTANT = .good j :: rest →
      (archStep archC3Start).2 = some (.phInstant, j)) :=
  c3_amended_scheduling archC3Start.store archC3Start

/-- Store whose machinist instant queue holds one unparsable element. -/
def badElemStore : Store :=
  [(MACHINIST_QUEUE_INSTANT, [.bad "not-json"])]

/-- Claim C4 (counterexample): when the head of a queue fails to parse,
`popJob` returns nothing and consumes the element, but the resulting store
contains no dead-letter entry at all — in particular `dlq:machinist` stays
empty, so the raw element is not redirected to `dlq:<worker>`. -/
theorem c4_counterexample :
    popJob badElemStore MACHINIST_QUEUE_INSTANT =
      (none, [(MACHINIST_QUEUE_INSTANT, [])]) ∧
    storeGet [(MACHINIST_QUEUE_INSTANT, ([] : List RawElem))]
      "dlq:machinist" = [] := by
  exact ⟨rfl, rfl⟩

/-- Claim C4 (amended): a parse failure is not raised to the caller of
`popJob`: the raw element is consumed and discarded (returning nothing), and
every other key of the store — any dead-letter list included — is left
unchanged. The machinist worker loop, which pops raw elements itself via a
blocking pop, instead pushes an unparsable raw element onto the legacy list
`image-processing:failed` (not `dlq:machinist`) and continues. -/
theorem c4_amended_parse_failure
    (s : Store) (k raw : String) (rest : List RawElem)
    (hq : storeGet s k = .bad raw :: rest) :
    (popJob s k = (none, storeSet s k rest) ∧
      ∀ k2, k2 ≠ k → storeGet (storeSet s k rest) k2 = storeGet s k2) ∧
    (∀ s1 kq, brPop s machinistListenQueues = (some (kq, .bad raw), s1) →
      machinistIteration s = (.parseFailed raw, rPush s1 DLQ_QUEUE (.bad raw)) ∧
      storeGet (rPush s1 DLQ_QUEUE (.bad raw)) DLQ_QUEUE =
        storeGet s1 DLQ_QUEUE ++ [.bad raw] ∧
      storeGet (rPush s1 DLQ_QUEUE (.bad raw)) "dlq:machinist" =
        storeGet s1 "dlq:machinist") := by
  refine ⟨⟨?_, ?_⟩, ?_⟩
  · unfold popJob
    rw [hq]
  · intro k2 hk2
    exact storeGet_storeSet_ne _ _ _ _ hk2
  · intro s1 kq hbr
    refine ⟨?_, ?_, ?_⟩
    · unfold machinistIteration
      rw [hbr]
    · exact storeGet_storeSet_self _ _ _
    · exact storeGet_storeSet_ne _ _ _ _ (by decide)

/-- Witness for `c4_amended_parse_failure` on the concrete one-element
store. -/
theorem c4_amended_parse_failure_witness :
    (popJob badElemStore MACHINIST_QUEUE_INSTANT =
        (none, storeSet badElemStore MACHINIST_QUEUE_INSTANT []) ∧
      ∀ k2, k2 ≠ MACHINIST_QUEUE_INSTANT →
        storeGet (storeSet badElemStore MACHINIST_QUEUE_INSTANT []) k2 =
          storeGet badElemStore k2) ∧
    (∀ s1 kq,
      brPop badElemStore machinistListenQueues = (some (kq, .bad "not-json"), s1) →
      machinistIteration badElemStore =
        (.parseFailed "not-json", rPush s1 DLQ_QUEUE (.bad "not-json")) ∧
      storeGet (rPush s1 DLQ_QUEUE (.bad "not-json")) DLQ_QUEUE =
        storeGet s1 DLQ_QUEUE ++ [.bad "not-json"] ∧
      storeGet (rPush s1 DLQ_QUEUE (.bad "not-json")) "dlq:machinist" =
        storeGet s1 "dlq:machinist") :=
  c4_amended_parse_failure badElemStore MACHINIST_QUEUE_INSTANT "not-json" [] rfl

/-! ## Dead-letter helper `sendToDLQ` (src/resilience/dlq.js)

The function acquires the list-store client, then, inside separate
try/catch blocks, pushes a redacted entry, best-effort writes a
`failed_reason` to the relational store, and optionally notifies a webhook.
Collaborator failures are modeled by an environment of success flags; the
effects actually performed are collected in a record. The client
acquisition happens before the first try block. -/

/-- Redacted payload of a dead-letter entry: identifiers only. -/
structure DlqPayload where
  tenant_id : Option String
  asset_id : Option String
  batch_id : Option String
  job_type : String
deriving DecidableEq, Repr

/-- Dead-letter entry as serialized by `sendToDLQ`. -/
structure DLQEntry where
  id : String
  job_type : String
  reason : String
  code : Option String
  field : Option String
  timestamp : String
  payload : DlqPayload
deriving DecidableEq, Repr

/-- Availability of the collaborators during one `sendToDLQ` call. -/
structure DlqEnv where
  clientOk : Bool
  pushOk : Bool
  dbOk : Bool
  webhookUrl : Option String
  webhookOk : Bool
  dryRun : Bool
deriving DecidableEq, Repr

/-- Side effects performed by one `sendToDLQ` call. -/
structure DlqEffects where
  pushes : List (String × DLQEntry)
  dbWrites : List (String × String)
  webhooks : List String
deriving DecidableEq, Repr

/-- Embedding of `job && (job.job_type || job.jobType || 'unknown')` for a
job object. -/
def jobTypeOf (job : Job) : String :=
  orDefault (orStr job.job_type job.jobType) "unknown"

/-- Characters of a string before the first dot. -/
def takeUntilDot : List Char → List Char
  | [] => []
  | c :: rest => if c = '.' then [] else c :: takeUntilDot rest

/-- Embedding of `(jobType && String(jobType).split('.')[0]) || 'unknown'`:
the worker prefix of a job type. -/
def workerOfJobType (jobType : String) : String :=
  if jobType = "" then "unknown"
  else
    let w : String := ⟨takeUntilDot jobType.data⟩
    if w = "" then "unknown" else w

/-- Embedding of `sendToDLQ(job, reason)`: the list-store client is acquired
before any try block, so its failure rejects the call; afterwards the entry
push, the `failed_reason` update and the webhook notification each sit in
their own try/catch and their failures are swallowed. `ts` and `rand` stand
for the wall clock and the random id suffix. -/
def sendToDLQ (job : Job) (reason : String) (env : DlqEnv) (ts rand : String) :
    Except String DlqEffects :=
  let jobType := jobTypeOf job
  let key := "dlq:" ++ jobType
  if ¬ env.clientOk then .error "getRedisClient failed"
  else
    let entry : DLQEntry :=
      { id := "dlq:" ++ jobType ++ ":" ++ ts ++ ":" ++ rand,
        job_type := jobType,
        reason := reason,
        code := if truthy job.code then job.code else none,
        field := if truthy job.field then job.field else none,
        timestamp := ts,
        payload := { tenant_id := job.tenant_id, asset_id := job.asset_id,
                     batch_id := job.batch_id, job_type := jobType } }
    let pushes := if env.pushOk then [(key, entry)] else []
    let dbWrites :=
      if truthy job.asset_id ∧ ¬ env.dryRun ∧ env.dbOk then
        [(orDefault job.asset_id "", reason)]
      else []
    let webhooks :=
      match env.webhookUrl with
      | some url => if env.webhookOk then [url] else []
      | none => []
    .ok { pushes := pushes, dbWrites := dbWrites, webhooks := webhooks }

/-- Environment with every collaborator available. -/
def allOkEnv : DlqEnv :=
  { clientOk := true, pushOk := true, dbOk := true,
    webhookUrl := none, webhookOk := true, dryRun := false }

/-- Claim C5 (counterexample): when acquiring the list-store client fails,
`sendToDLQ` rejects — the acquisition happens before the first try/catch
block, so this list-store failure is raised to the caller. -/
theorem c5_counterexample :
    sendToDLQ { job_type := some "machinist" } "boom"
      { clientOk := false, pushOk := true, dbOk := true,
        webhookUrl := none, webhookOk := true, dryRun := false }
      "t0" "r0" = .error "getRedisClient failed" := rfl

/-- Claim C5 (amended): provided the list-store client acquisition succeeds,
`sendToDLQ` never throws, whatever the outcome of the entry push, the
relational-store write, or the webhook notification. -/
theorem c5_amended_no_throw (job : Job) (reason : String) (env : DlqEnv)
    (ts rand : String) (hc : env.clientOk = true) :
    ∃ eff, sendToDLQ job reason env ts rand = .ok eff := by
  obtain ⟨co, po, dbo, wu, wo, dr⟩ := env
  simp only at hc
  subst hc
  exact ⟨_, rfl⟩

/-- Witness for `c5_amended_no_throw` with every collaborator failing except
the client acquisition. -/
theorem c5_amended_no_throw_witness :
    ∃ eff, sendToDLQ { job_type := some "machinist" } "boom"
      { clientOk := true, pushOk := false, dbOk := false,
        webhookUrl := some "https://dlq.example", webhookOk := false,
        dryRun := false } "t0" "r0" = .ok eff :=
  c5_amended_no_throw _ _ _ _ _ rfl

/-- Job of the synthetic dead-letter entry pushed by the jobgroup result
processor, whose `job_type` carries a dotted suffix. -/
def jobgroupResultJob : Job :=
  { job_type := some "archivist.jobgroup-result",
    tenant_id := some "11111111-1111-4111-8111-111111111111",
    asset_id := some "22222222-2222-4222-8222-222222222222" }

/-- Claim C6 (counterexample): for the poller's synthetic entry with
`job_type = archivist.jobgroup-result`, `sendToDLQ` pushes onto
`dlq:archivist.jobgroup-result`, not onto `dlq:` followed by the worker
prefix of the job type (`archivist`). -/
theorem c6_counterexample :
    (sendToDLQ jobgroupResultJob "jobgroup_result_failed:x" allOkEnv
        "t0" "r0").map (fun eff => eff.pushes.map Prod.fst) =
      .ok ["dlq:archivist.jobgroup-result"] ∧
    workerOfJobType "archivist.jobgroup-result" = "archivist" ∧
    ("dlq:archivist.jobgroup-result" : String) ≠ "dlq:archivist" := by
  refine ⟨rfl, by decide, by decide⟩

/-- Claim C6 (amended): `sendToDLQ` pushes exactly one entry, onto the list
keyed `dlq:` followed by the job's full `job_type` (which coincides with the
worker prefix only when the job type is undotted); the entry's payload
consists exactly of the identifiers `tenant_id`, `asset_id`, `batch_id` and
`job_type` taken from the job, and the entry carries the reason string —
never buffers or image data. -/
theorem c6_amended_key_and_payload (job : Job) (reason : String)
    (env : DlqEnv) (ts rand : String) (eff : DlqEffects)
    (h : sendToDLQ job reason env ts rand = .ok eff)
    (hp : env.pushOk = true) :
    ∃ entry, eff.pushes = [("dlq:" ++ jobTypeOf job, entry)] ∧
      entry.payload = ⟨job.tenant_id, job.asset_id, job.batch_id,
        jobTypeOf job⟩ ∧
      entry.reason = reason ∧
      entry.job_type = jobTypeOf job := by
  unfold sendToDLQ at h
  by_cases hc : env.clientOk
  · rw [if_neg (by simp [hc])] at h
    rw [hp] at h
    simp only [if_true, Except.ok.injEq] at h
    subst h
    exact ⟨_, rfl, rfl, rfl, rfl⟩
  · rw [if_pos (by simp [hc])] at h
    exact absurd h (by simp)

/-- Witness for `c6_amended_key_and_payload` on the poller's synthetic
job. -/
theorem c6_amended_key_and_payload_witness :
    ∃ entry,
      (DlqEffects.mk
        [("dlq:archivist.jobgroup-result",
          { id := "dlq:archivist.jobgroup-result:t0:r0",
            job_type := "archivist.jobgroup-result",
            reason := "jobgroup_result_failed:x",
            code := none, field := none, timestamp := "t0",
            payload := ⟨jobgroupResultJob.tenant_id,
              jobgroupResultJob.asset_id, jobgroupResultJob.batch_id,
              "archivist.jobgroup-result"⟩ })]
        [("22222222-2222-4222-8222-222222222222", "jobgroup_result_failed:x")]
        []).pushes =
        [("dlq:" ++ jobTypeOf jobgroupResultJob, entry)] ∧
      entry.payload = ⟨jobgroupResultJob.tenant_id, jobgroupResultJob.asset_id,
        jobgroupResultJob.batch_id, jobTypeOf jobgroupResultJob⟩ ∧
      entry.reason = "jobgroup_result_failed:x" ∧
      entry.job_type = jobTypeOf jobgroupResultJob :=
  c6_amended_key_and_payload jobgroupResultJob "jobgroup_result_failed:x"
    allOkEnv "t0" "r0" _ rfl rfl

/-- Claim C10: a job with neither `job_type` nor `jobType` still succeeds
through `sendToDLQ` (given the client acquisition and push succeed): the
entry is recorded with `job_type = "unknown"` and pushed onto the list keyed
`dlq:unknown`. -/
theorem c10_unknown_job_type (job : Job) (reason : String) (env : DlqEnv)
    (ts rand : String)
    (hjt : job.job_type = none) (hjt2 : job.jobType = none)
    (hc : env.clientOk = true) (hp : env.pushOk = true) :
    ∃ eff entry, sendToDLQ job reason env ts rand = .ok eff ∧
      eff.pushes = [("dlq:unknown", entry)] ∧
      entry.job_type = "unknown" ∧ entry.payload.job_type = "unknown" := by
  have hu : jobTypeOf job = "unknown" := by
    unfold jobTypeOf orStr orDefault
    rw [hjt, hjt2]
    rfl
  obtain ⟨co, po, dbo, wu, wo, dr⟩ := env
  simp only at hc hp
  subst hc
  subst hp
  unfold sendToDLQ
  rw [hu]
  exact ⟨_, _, rfl, rfl, rfl, rfl⟩

/-- Witness for `c10_unknown_job_type` on the empty job object. -/
theorem c10_unknown_job_type_witness :
    ∃ eff entry, sendToDLQ {} "mystery failure" allOkEnv "t0" "r0" = .ok eff ∧
      eff.pushes = [("dlq:unknown", entry)] ∧
      entry.job_type = "unknown" ∧ entry.payload.job_type = "unknown" :=
  c10_unknown_job_type {} "mystery failure" allOkEnv "t0" "r0" rfl rfl rfl rfl

/-! ## Jobgroup result processing (archivist.jobgroup.poller.js)

`processCompletedJobgroup` reads the jobgroup output file, splits it into
nonempty lines, parses each line as JSON (dropping unparsable lines),
short-circuits when the existing `jobgroup_results` count matches the
parsed-line count, and otherwise processes each output object through
`processOneOutputObject`, finally writing the jobgroup's terminal status and
notes. The file is modeled as its list of nonempty lines; chunked parallel
processing is linearized (upserts key on `(jobgroup_id, asset_id)`, so the
chunk-internal order does not change the resulting rows). -/

/-- Status of a `jobgroup_results` row. -/
inductive ResultStatus where
  | completed
  | failed
deriving DecidableEq, Repr

/-- Row of the `jobgroup_results` table (the fields the claims touch). -/
structure JgResultRow where
  jobgroup_id : String
  asset_id : String
  custom_id : String
  status : ResultStatus
  error_code : Option String
deriving DecidableEq, Repr

/-- Row of the `asset` table (fields recovered during result processing). -/
structure AssetRow where
  id : String
  tenant_id : String
  batch_id : Option String
deriving DecidableEq, Repr

/-- Notes document written onto the jobgroup row by the poller. -/
inductive JgNotes where
  | initial
  | shortcutNotes (processed : Nat)
  | okNotes (processed skipped : Nat)
  | failNotes (processed failed skipped : Nat)
deriving DecidableEq, Repr

/-- The jobgroup row being processed. -/
structure JobgroupRow where
  id : String
  tenant_id : String
  batch_id : Option String
  output_file_id : Option String
  created_at : String
deriving DecidableEq, Repr

/-- Relational-store state touched by jobgroup result processing, plus the
count of synthetic dead-letter entries routed. -/
structure JgDb where
  results : List JgResultRow
  aidesc : List (String × String)
  assets : List AssetRow
  jgStatus : String
  jgNotes : JgNotes
  dlqCount : Nat
deriving DecidableEq, Repr

/-- Line of the output file: parsable object (with its `custom_id` and
extracted message content) or unparsable junk. -/
inductive OutLine where
  | junk (s : String)
  | obj (custom_id : String) (content : String)
deriving DecidableEq, Repr

/-- Embedding of the `custom_id` parse in `processOneOutputObject`:
`customId && customId.startsWith('asset-') ? customId.slice(6) : null`,
followed by `if (!assetId) return 'skipped'`. -/
def parseAssetId (customId : String) : Option String :=
  if customId ≠ "" && strHasStart customId "asset-" then
    let a := sliceFrom customId 6
    if a = "" then none else some a
  else none

/-- Embedding of `hasJobgroupResult`: a row keyed
`(jobgroup_id, asset_id)` exists. -/
def hasJgResult (rows : List JgResultRow) (jgid aid : String) : Bool :=
  rows.any (fun r => r.jobgroup_id == jgid && r.asset_id == aid)

/-- Embedding of `upsertJobgroupResult` (`onConflict: jobgroup_id,asset_id`):
replace the row with the same key, or append. -/
def upsertJgResult (rows : List JgResultRow) (row : JgResultRow) :
    List JgResultRow :=
  if hasJgResult rows row.jobgroup_id row.asset_id then
    rows.map (fun r =>
      if r.jobgroup_id == row.jobgroup_id && r.asset_id == row.asset_id
      then row else r)
  else rows ++ [row]

/-- Embedding of `getAssetById` (`single()` lookup; absence throws). -/
def lookupAsset (assets : List AssetRow) (aid : String) : Option AssetRow :=
  assets.find? (fun a => a.id == aid)

/-- Embedding of `upsertAiDescription` keyed `(tenant_id, asset_id)`. -/
def upsertAiDesc (l : List (String × String)) (k : String × String) :
    List (String × String) :=
  if k ∈ l then l else l ++ [k]

/-- Outcome tag returned by `processOneOutputObject`. -/
inductive ResultTag where
  | processed
  | skipped
  | failedTag
deriving DecidableEq, Repr

/-- Embedding of `processOneOutputObject`: skip malformed `custom_id` values
and already-present `(jobgroup_id, asset_id)` keys; look up the asset; on
success upsert `ai_description` and a `completed` result row; when the asset
lookup throws, the catch block upserts a `failed` row with code
`PROCESSING_FAILED` and routes a synthetic dead-letter entry. -/
def processOneOutputObject (db : JgDb) (jg : JobgroupRow)
    (customId _content : String) : JgDb × ResultTag :=
  match parseAssetId customId with
  | none => (db, .skipped)
  | some aid =>
    if hasJgResult db.results jg.id aid then (db, .skipped)
    else
      match lookupAsset db.assets aid with
      | some asset =>
        let db1 := { db with
          aidesc := upsertAiDesc db.aidesc (asset.tenant_id, aid) }
        let row : JgResultRow :=
          { jobgroup_id := jg.id, asset_id := aid, custom_id := customId,
            status := .completed, error_code := none }
        ({ db1 with results := upsertJgResult db1.results row }, .processed)
      | none =>
        let row : JgResultRow :=
          { jobgroup_id := jg.id, asset_id := aid, custom_id := customId,
            status := .failed, error_code := some "PROCESSING_FAILED" }
        ({ db with
            results := upsertJgResult db.results row
            dlqCount := db.dlqCount + 1 }, .failedTag)

/-- Sequential fold of `processOneOutputObject` over the parsed output
objects, tallying `(processed, failed, skipped)` as the chunk loop does. -/
def processObjs (jg : JobgroupRow) :
    JgDb → List (String × String) → JgDb × Nat × Nat × Nat
  | db, [] => (db, 0, 0, 0)
  | db, (cid, c) :: rest =>
    let r := processOneOutputObject db jg cid c
    let rest2 := processObjs jg r.1 rest
    (rest2.1,
      rest2.2.1 + (if r.2 = .processed then 1 else 0),
      rest2.2.2.1 + (if r.2 = .failedTag then 1 else 0),
      rest2.2.2.2 + (if r.2 = .skipped then 1 else 0))

/-- Parsed objects of the output file, in line order. -/
def objsOf (file : List OutLine) : List (String × String) :=
  file.filterMap (fun l =>
    match l with
    | .junk _ => none
    | .obj cid c => some (cid, c))

/-- Rows of `jobgroup_results` belonging to a jobgroup. -/
def resultsFor (rows : List JgResultRow) (jgid : String) : List JgResultRow :=
  rows.filter (fun r => r.jobgroup_id == jgid)

/-- Embedding of `processCompletedJobgroup`: return unchanged without an
`output_file_id`; short-circuit to `completed` with
`notes = {processed, shortcut: already_complete}` when the existing result
count is truthy (nonzero) and equals the parsed-object count; otherwise fold
the objects and write the terminal status (`failed` when any result failed,
else `completed`) with the `{processed, failed?, skipped}` notes. -/
def processCompletedJobgroup (db : JgDb) (jg : JobgroupRow)
    (file : List OutLine) : JgDb :=
  match jg.output_file_id with
  | none => db
  | some _ =>
    let objs := objsOf file
    let existingCount := (resultsFor db.results jg.id).length
    if existingCount ≠ 0 ∧ existingCount = objs.length then
      { db with jgStatus := "completed", jgNotes := .shortcutNotes existingCount }
    else
      let r := processObjs jg db objs
      if 0 < r.2.2.1 then
        { r.1 with
          jgStatus := "failed"
          jgNotes := .failNotes r.2.1 r.2.2.1 r.2.2.2 }
      else
        { r.1 with
          jgStatus := "completed"
          jgNotes := .okNotes r.2.1 r.2.2.2 }

/-- Asset ids of the rows of a jobgroup, in row order. -/
def assetIdsFor (rows : List JgResultRow) (jgid : String) : List String :=
  (resultsFor rows jgid).map (fun r => r.asset_id)

/-- Well-formed asset ids of the parsed output objects, in line order. -/
def validAssetsObjs (objs : List (String × String)) : List String :=
  objs.filterMap (fun p => parseAssetId p.1)

/-- Well-formed asset ids appearing in the output file. -/
def validAssets (file : List OutLine) : List String :=
  validAssetsObjs (objsOf file)

/-- Count of distinct `custom_id` values among the parsable lines. -/
def uniqueCustomIdCount (file : List OutLine) : Nat :=
  ((objsOf file).map Prod.fst).dedup.length

theorem assetIdsFor_cons (r : JgResultRow) (rest : List JgResultRow)
    (jgid : String) :
    assetIdsFor (r :: rest) jgid =
      (if r.jobgroup_id = jgid then [r.asset_id] else []) ++
        assetIdsFor rest jgid := by
  unfold assetIdsFor resultsFor
  by_cases h : r.jobgroup_id = jgid
  · simp [List.filter_cons, h]
  · simp [List.filter_cons, h]

theorem assetIdsFor_append (l1 l2 : List JgResultRow) (jgid : String) :
    assetIdsFor (l1 ++ l2) jgid = assetIdsFor l1 jgid ++ assetIdsFor l2 jgid := by
  unfold assetIdsFor resultsFor
  simp [List.filter_append]

theorem hasJgResult_iff_mem (rows : List JgResultRow) (jgid aid : String) :
    hasJgResult rows jgid aid = true ↔ aid ∈ assetIdsFor rows jgid := by
  unfold hasJgResult assetIdsFor resultsFor
  simp only [List.any_eq_true, Bool.and_eq_true, beq_iff_eq, List.mem_map,
    List.mem_filter]
  constructor
  · rintro ⟨r, hr, h1, h2⟩
    exact ⟨r, ⟨hr, by simp [h1]⟩, h2⟩
  · rintro ⟨r, ⟨hr, h1⟩, h2⟩
    exact ⟨r, hr, by simpa using h1, h2⟩

theorem assetIdsFor_replace (rows : List JgResultRow) (row : JgResultRow)
    (jgid : String) :
    assetIdsFor (rows.map (fun r =>
      if r.jobgroup_id == row.jobgroup_id && r.asset_id == row.asset_id
      then row else r)) jgid = assetIdsFor rows jgid := by
  induction rows with
  | nil => rfl
  | cons r rest ih =>
    simp only [List.map_cons]
    by_cases h : r.jobgroup_id = row.jobgroup_id ∧ r.asset_id = row.asset_id
    · have hb : (r.jobgroup_id == row.jobgroup_id &&
          r.asset_id == row.asset_id) = true := by simp [h.1, h.2]
      rw [if_pos hb, assetIdsFor_cons, assetIdsFor_cons r rest, ih, ← h.1, ← h.2]
    · have hb : ¬ ((r.jobgroup_id == row.jobgroup_id &&
          r.asset_id == row.asset_id) = true) := by
        intro hc
        simp only [Bool.and_eq_true, beq_iff_eq] at hc
        exact h hc
      rw [if_neg hb, assetIdsFor_cons, assetIdsFor_cons r rest, ih]

theorem assetIdsFor_upsert (rows : List JgResultRow) (row : JgResultRow)
    (jgid : String) :
    assetIdsFor (upsertJgResult rows row) jgid =
      if hasJgResult rows row.jobgroup_id row.asset_id then
        assetIdsFor rows jgid
      else
        assetIdsFor rows jgid ++
          (if row.jobgroup_id = jgid then [row.asset_id] else []) := by
  unfold upsertJgResult
  by_cases h : hasJgResult rows row.jobgroup_id row.asset_id
  · rw [if_pos h, if_pos h, assetIdsFor_replace]
  · rw [if_neg h, if_neg h, assetIdsFor_append, assetIdsFor_cons]
    simp [assetIdsFor, resultsFor]

theorem processOne_skip_none (db : JgDb) (jg : JobgroupRow) (cid c : String)
    (hp : parseAssetId cid = none) :
    processOneOutputObject db jg cid c = (db, .skipped) := by
  unfold processOneOutputObject
  rw [hp]

theorem processOne_skip_has (db : JgDb) (jg : JobgroupRow) (cid c aid : String)
    (hp : parseAssetId cid = some aid)
    (hh : hasJgResult db.results jg.id aid = true) :
    processOneOutputObject db jg cid c = (db, .skipped) := by
  unfold processOneOutputObject
  simp only [hp]
  rw [if_pos hh]

theorem processOne_ids_fresh (db : JgDb) (jg : JobgroupRow) (cid c aid : String)
    (hp : parseAssetId cid = some aid)
    (hh : ¬ hasJgResult db.results jg.id aid = true) :
    assetIdsFor (processOneOutputObject db jg cid c).1.results jg.id =
      assetIdsFor db.results jg.id ++ [aid] := by
  unfold processOneOutputObject
  simp only [hp]
  rw [if_neg hh]
  cases hl : lookupAsset db.assets aid with
  | some asset =>
    simp only
    rw [assetIdsFor_upsert]
    simp [hh]
  | none =>
    simp only
    rw [assetIdsFor_upsert]
    simp [hh]

theorem validAssetsObjs_cons (cid c : String) (rest : List (String × String)) :
    validAssetsObjs ((cid, c) :: rest) =
      (parseAssetId cid).toList ++ validAssetsObjs rest := by
  unfold validAssetsObjs
  cases hp : parseAssetId cid <;> simp [List.filterMap_cons, hp]

theorem processObjs_state_cons (jg : JobgroupRow) (db : JgDb)
    (cid c : String) (rest : List (String × String)) :
    (processObjs jg db ((cid, c) :: rest)).1 =
      (processObjs jg (processOneOutputObject db jg cid c).1 rest).1 := rfl

theorem processObjs_mem (jg : JobgroupRow) (objs : List (String × String)) :
    ∀ db aid, aid ∈ assetIdsFor (processObjs jg db objs).1.results jg.id ↔
      (aid ∈ assetIdsFor db.results jg.id ∨ aid ∈ validAssetsObjs objs) := by
  induction objs with
  | nil =>
    intro db aid
    simp [processObjs, validAssetsObjs]
  | cons p rest ih =>
    obtain ⟨cid, c⟩ := p
    intro db aid
    rw [processObjs_state_cons, ih, validAssetsObjs_cons]
    cases hp : parseAssetId cid with
    | none =>
      rw [processOne_skip_none db jg cid c hp]
      simp
    | some aid0 =>
      by_cases hh : hasJgResult db.results jg.id aid0 = true
      · rw [processOne_skip_has db jg cid c aid0 hp hh]
        have hmem := (hasJgResult_iff_mem db.results jg.id aid0).mp hh
        simp only [Option.toList_some, List.mem_append, List.mem_singleton]
        constructor
        · rintro (h1 | h2)
          · exact Or.inl h1
          · exact Or.inr (Or.inr h2)
        · rintro (h1 | h1 | h2)
          · exact Or.inl h1
          · exact Or.inl (by rw [h1]; exact hmem)
          · exact Or.inr h2
      · rw [processOne_ids_fresh db jg cid c aid0 hp hh]
        simp only [List.mem_append, List.mem_singleton, Option.toList_some]
        constructor
        · rintro ((h1 | h1) | h2)
          · exact Or.inl h1
          · exact Or.inr (Or.inl h1)
          · exact Or.inr (Or.inr h2)
        · rintro (h1 | h1 | h2)
          · exact Or.inl (Or.inl h1)
          · exact Or.inl (Or.inr h1)
          · exact Or.inr h2

theorem processObjs_nodup (jg : JobgroupRow) (objs : List (String × String)) :
    ∀ db, (assetIdsFor db.results jg.id).Nodup →
      (assetIdsFor (processObjs jg db objs).1.results jg.id).Nodup := by
  induction objs with
  | nil => intro db h; exact h
  | cons p rest ih =>
    obtain ⟨cid, c⟩ := p
    intro db h
    rw [processObjs_state_cons]
    apply ih
    cases hp : parseAssetId cid with
    | none => rw [processOne_skip_none db jg cid c hp]; exact h
    | some aid0 =>
      by_cases hh : hasJgResult db.results jg.id aid0 = true
      · rw [processOne_skip_has db jg cid c aid0 hp hh]; exact h
      · rw [processOne_ids_fresh db jg cid c aid0 hp hh]
        have hnm : aid0 ∉ assetIdsFor db.results jg.id := fun hm =>
          hh ((hasJgResult_iff_mem db.results jg.id aid0).mpr hm)
        simp [List.nodup_append, h, hnm]

theorem processObjs_skip_all (jg : JobgroupRow) (objs : List (String × String)) :
    ∀ db, (∀ aid ∈ validAssetsObjs objs,
        hasJgResult db.results jg.id aid = true) →
      processObjs jg db objs = (db, 0, 0, objs.length) := by
  induction objs with
  | nil => intro db _; rfl
  | cons p rest ih =>
    obtain ⟨cid, c⟩ := p
    intro db hall
    have hone : processOneOutputObject db jg cid c = (db, .skipped) := by
      cases hp : parseAssetId cid with
      | none => exact processOne_skip_none db jg cid c hp
      | some aid0 =>
        refine processOne_skip_has db jg cid c aid0 hp (hall aid0 ?_)
        rw [validAssetsObjs_cons, hp]
        simp
    have hrest : ∀ aid ∈ validAssetsObjs rest,
        hasJgResult db.results jg.id aid = true := by
      intro aid hm
      refine hall aid ?_
      rw [validAssetsObjs_cons]
      exact List.mem_append_right _ hm
    show (let r := processOneOutputObject db jg cid c
      let rest2 := processObjs jg r.1 rest
      (rest2.1,
        rest2.2.1 + (if r.2 = .processed then 1 else 0),
        rest2.2.2.1 + (if r.2 = .failedTag then 1 else 0),
        rest2.2.2.2 + (if r.2 = .skipped then 1 else 0))) = _
    rw [hone]
    simp only
    rw [ih db hrest]
    rfl

theorem run_unfold (db : JgDb) (jg : JobgroupRow) (file : List OutLine)
    (ofid : String) (hof : jg.output_file_id = some ofid) :
    processCompletedJobgroup db jg file =
      if (resultsFor db.results jg.id).length ≠ 0 ∧
          (resultsFor db.results jg.id).length = (objsOf file).length then
        { db with
          jgStatus := "completed"
          jgNotes := .shortcutNotes (resultsFor db.results jg.id).length }
      else if 0 < (processObjs jg db (objsOf file)).2.2.1 then
        { (processObjs jg db (objsOf file)).1 with
          jgStatus := "failed"
          jgNotes := .failNotes (processObjs jg db (objsOf file)).2.1
            (processObjs jg db (objsOf file)).2.2.1
            (processObjs jg db (objsOf file)).2.2.2 }
      else
        { (processObjs jg db (objsOf file)).1 with
          jgStatus := "completed"
          jgNotes := .okNotes (processObjs jg db (objsOf file)).2.1
            (processObjs jg db (objsOf file)).2.2.2 } := by
  unfold processCompletedJobgroup
  rw [hof]

theorem run_fields_fold (db : JgDb) (jg : JobgroupRow) (file : List OutLine)
    (ofid : String) (hof : jg.output_file_id = some ofid)
    (hnsc : ¬ ((resultsFor db.results jg.id).length ≠ 0 ∧
      (resultsFor db.results jg.id).length = (objsOf file).length)) :
    (processCompletedJobgroup db jg file).results =
        (processObjs jg db (objsOf file)).1.results ∧
      (processCompletedJobgroup db jg file).aidesc =
        (processObjs jg db (objsOf file)).1.aidesc ∧
      (processCompletedJobgroup db jg file).dlqCount =
        (processObjs jg db (objsOf file)).1.dlqCount := by
  rw [run_unfold db jg file ofid hof, if_neg hnsc]
  by_cases hf : 0 < (processObjs jg db (objsOf file)).2.2.1
  · rw [if_pos hf]; exact ⟨rfl, rfl, rfl⟩
  · rw [if_neg hf]; exact ⟨rfl, rfl, rfl⟩

/-- Jobgroup row used by the concrete result-processing runs. -/
def c2Jobgroup : JobgroupRow :=
  { id := "jg-1", tenant_id := "11111111-1111-4111-8111-111111111111",
    batch_id := none, output_file_id := some "of-1",
    created_at := "2024-01-01T00:00:00Z" }

/-- Fresh relational state: no results, one known asset. -/
def c2FreshDb : JgDb :=
  { results := []
    aidesc := []
    assets := [⟨"22222222-2222-4222-8222-222222222222",
      "11111111-1111-4111-8111-111111111111", none⟩]
    jgStatus := "in_progress"
    jgNotes := .initial
    dlqCount := 0 }

/-- Output file with a single parsable line whose `custom_id` is not of the
form `asset-<id>`. -/
def bogusFile : List OutLine := [.obj "bogus" "content"]

/-- Claim C2 (counterexample): processing an output file whose only line has
the malformed `custom_id` value `bogus` writes no `jobgroup_results` row at
all, while the file has one distinct `custom_id` value — so the row count
does not equal the number of unique `custom_id` values in the file. -/
theorem c2_counterexample :
    resultsFor (processCompletedJobgroup c2FreshDb c2Jobgroup bogusFile).results
        c2Jobgroup.id = [] ∧
      uniqueCustomIdCount bogusFile = 1 := ⟨by decide, by decide⟩

/-- Claim C2 (amended): starting from a state with no `jobgroup_results` rows
for the jobgroup, processing the output file produces exactly one row per
distinct well-formed asset id (a `custom_id` of the form `asset-<nonempty>`
on a parsable line) — malformed `custom_id` values are skipped without a
write, so unique `custom_id` values with other shapes produce no rows.
Re-running the processing is idempotent: the rows, the `ai_description`
upserts and the dead-letter count are unchanged by a second run (each
`(jobgroup_id, asset_id)` that already has a row is skipped). The
idempotency short-circuit fires when the existing result count is nonzero
and equals the count of parsable lines (not the raw line count),
transitioning the jobgroup to `completed` with
`notes = {processed, shortcut: already_complete}`. -/
theorem c2_amended_idempotent_processing (db : JgDb) (jg : JobgroupRow)
    (file : List OutLine) (ofid : String)
    (hof : jg.output_file_id = some ofid) :
    (resultsFor db.results jg.id = [] →
      (resultsFor (processCompletedJobgroup db jg file).results jg.id).length =
        (validAssets file).dedup.length) ∧
    ((processCompletedJobgroup (processCompletedJobgroup db jg file) jg
          file).results = (processCompletedJobgroup db jg file).results ∧
      (processCompletedJobgroup (processCompletedJobgroup db jg file) jg
          file).aidesc = (processCompletedJobgroup db jg file).aidesc ∧
      (processCompletedJobgroup (processCompletedJobgroup db jg file) jg
          file).dlqCount = (processCompletedJobgroup db jg file).dlqCount) ∧
    ((resultsFor db.results jg.id).length ≠ 0 →
      (resultsFor db.results jg.id).length = (objsOf file).length →
      processCompletedJobgroup db jg file =
        { db with
          jgStatus := "completed"
          jgNotes := .shortcutNotes (resultsFor db.results jg.id).length }) := by
  refine ⟨?_, ?_, ?_⟩
  · intro hfresh
    have hA0 : assetIdsFor db.results jg.id = [] := by
      unfold assetIdsFor
      rw [hfresh]
      rfl
    have hnsc : ¬ ((resultsFor db.results jg.id).length ≠ 0 ∧
        (resultsFor db.results jg.id).length = (objsOf file).length) := by
      intro hc
      exact hc.1 (by rw [hfresh]; rfl)
    obtain ⟨hres, h2, h3⟩ := run_fields_fold db jg file ofid hof hnsc
    rw [hres]
    have hlen : (resultsFor (processObjs jg db (objsOf file)).1.results
        jg.id).length =
        (assetIdsFor (processObjs jg db (objsOf file)).1.results jg.id).length := by
      unfold assetIdsFor
      rw [List.length_map]
    rw [hlen]
    have hnd := processObjs_nodup jg (objsOf file) db
      (by rw [hA0]; exact List.nodup_nil)
    have hfin : (assetIdsFor (processObjs jg db (objsOf file)).1.results
        jg.id).toFinset = (validAssets file).toFinset := by
      apply Finset.ext
      intro a
      simp only [List.mem_toFinset]
      rw [processObjs_mem jg (objsOf file) db a, hA0]
      simp [validAssets]
    rw [← List.toFinset_card_of_nodup hnd, hfin, List.card_toFinset]
  · by_cases hsc : (resultsFor db.results jg.id).length ≠ 0 ∧
        (resultsFor db.results jg.id).length = (objsOf file).length
    · have h1 : processCompletedJobgroup db jg file =
          { db with
            jgStatus := "completed"
            jgNotes := .shortcutNotes (resultsFor db.results jg.id).length } := by
        rw [run_unfold db jg file ofid hof, if_pos hsc]
      have hres1 : (processCompletedJobgroup db jg file).results = db.results := by
        rw [h1]
      have hsc2 : (resultsFor (processCompletedJobgroup db jg file).results
            jg.id).length ≠ 0 ∧
          (resultsFor (processCompletedJobgroup db jg file).results
            jg.id).length = (objsOf file).length := by
        rw [hres1]
        exact hsc
      have h2 : processCompletedJobgroup (processCompletedJobgroup db jg file)
          jg file =
          { (processCompletedJobgroup db jg file) with
            jgStatus := "completed"
            jgNotes := .shortcutNotes
              (resultsFor (processCompletedJobgroup db jg file).results
                jg.id).length } := by
        rw [run_unfold (processCompletedJobgroup db jg file) jg file ofid hof,
          if_pos hsc2]
      rw [h2]
      exact ⟨rfl, rfl, rfl⟩
    · obtain ⟨hres1, haid1, hdlq1⟩ := run_fields_fold db jg file ofid hof hsc
      have hhas : ∀ aid ∈ validAssetsObjs (objsOf file),
          hasJgResult (processCompletedJobgroup db jg file).results jg.id aid
            = true := by
        intro aid hm
        rw [hres1]
        exact (hasJgResult_iff_mem _ _ _).mpr
          ((processObjs_mem jg (objsOf file) db aid).mpr (Or.inr hm))
      by_cases hsc2 : (resultsFor (processCompletedJobgroup db jg file).results
            jg.id).length ≠ 0 ∧
          (resultsFor (processCompletedJobgroup db jg file).results
            jg.id).length = (objsOf file).length
      · have h2 : processCompletedJobgroup (processCompletedJobgroup db jg file)
            jg file =
            { (processCompletedJobgroup db jg file) with
              jgStatus := "completed"
              jgNotes := .shortcutNotes
                (resultsFor (processCompletedJobgroup db jg file).results
                  jg.id).length } := by
          rw [run_unfold (processCompletedJobgroup db jg file) jg file ofid hof,
            if_pos hsc2]
        rw [h2]
        exact ⟨rfl, rfl, rfl⟩
      · obtain ⟨hres2, haid2, hdlq2⟩ :=
          run_fields_fold (processCompletedJobgroup db jg file) jg file ofid
            hof hsc2
        have hskip := processObjs_skip_all jg (objsOf file)
          (processCompletedJobgroup db jg file) hhas
        refine ⟨?_, ?_, ?_⟩
        · rw [hres2, hskip]
        · rw [haid2, hskip]
        · rw [hdlq2, hskip]
  · intro hne heq
    rw [run_unfold db jg file ofid hof, if_pos ⟨hne, heq⟩]

/-- Output file used to witness the amended claim: one well-formed line, one
malformed line, one junk line, and a duplicate of the well-formed line. -/
def c2WitnessFile : List OutLine :=
  [.obj "asset-22222222-2222-4222-8222-222222222222" "desc",
   .obj "bogus" "noise",
   .junk "not json",
   .obj "asset-22222222-2222-4222-8222-222222222222" "desc again"]

/-- Witness for `c2_amended_idempotent_processing` on a concrete fresh state
and output file. -/
theorem c2_amended_idempotent_processing_witness :
    (resultsFor c2FreshDb.results c2Jobgroup.id = [] →
      (resultsFor (processCompletedJobgroup c2FreshDb c2Jobgroup
          c2WitnessFile).results c2Jobgroup.id).length =
        (validAssets c2WitnessFile).dedup.length) ∧
    ((processCompletedJobgroup (processCompletedJobgroup c2FreshDb c2Jobgroup
          c2WitnessFile) c2Jobgroup c2WitnessFile).results =
        (processCompletedJobgroup c2FreshDb c2Jobgroup c2WitnessFile).results ∧
      (processCompletedJobgroup (processCompletedJobgroup c2FreshDb c2Jobgroup
          c2WitnessFile) c2Jobgroup c2WitnessFile).aidesc =
        (processCompletedJobgroup c2FreshDb c2Jobgroup c2WitnessFile).aidesc ∧
      (processCompletedJobgroup (processCompletedJobgroup c2FreshDb c2Jobgroup
          c2WitnessFile) c2Jobgroup c2WitnessFile).dlqCount =
        (processCompletedJobgroup c2FreshDb c2Jobgroup c2WitnessFile).dlqCount) ∧
    ((resultsFor c2FreshDb.results c2Jobgroup.id).length ≠ 0 →
      (resultsFor c2FreshDb.results c2Jobgroup.id).length =
        (objsOf c2WitnessFile).length →
      processCompletedJobgroup c2FreshDb c2Jobgroup c2WitnessFile =
        { c2FreshDb with
          jgStatus := "completed"
          jgNotes := .shortcutNotes
            (resultsFor c2FreshDb.results c2Jobgroup.id).length }) :=
  c2_amended_idempotent_processing c2FreshDb c2Jobgroup c2WitnessFile "of-1" rfl

/-! ## Jobgroup submission throttle (archivist.batch.js, archivist.db.js)

`runJobgroupArchivist` validates the jobs, returns a stub in dry-run mode,
and otherwise throttles per tenant using `getRecentJobgroupsForTenant`,
which reads the tenant's jobgroups ordered by `created_at` descending with
`limit(50)`. Only after the throttle does it assemble the JSONL file, upload
it, create the external jobgroup and persist the row; those downstream
external calls are modeled as succeeding, and the effects record says which
of them happened. -/

/-- Row of the `jobgroups` table as used by the throttle
(`created_at` in epoch milliseconds). -/
structure TenantJobgroup where
  tenant_id : String
  status : String
  created_at : Int
deriving DecidableEq, Repr

/-- Embedding of `getRecentJobgroupsForTenant`: the tenant's rows ordered by
`created_at` descending, limited to the 50 most recent. -/
def getRecentJobgroupsForTenant (rows : List TenantJobgroup)
    (tenantId : String) : List TenantJobgroup :=
  ((rows.filter (fun r => r.tenant_id == tenantId)).insertionSort
    (fun a b => b.created_at ≤ a.created_at)).take 50

/-- Statuses counted as active by the submission throttle. -/
def activeStatusSet : List String :=
  ["queued", "in_progress", "validating", "created"]

/-- Which submission side effects took place. -/
structure SubmissionEffects where
  jsonlBuilt : Bool
  fileUploaded : Bool
  jobgroupCreated : Bool
  rowCreated : Bool
deriving DecidableEq, Repr

/-- No side effects at all. -/
def noSubmissionEffects : SubmissionEffects := ⟨false, false, false, false⟩

/-- Successful return of `runJobgroupArchivist` (dry-run stub or real). -/
structure SubmissionOk where
  dry : Bool
  requestCount : Nat
deriving DecidableEq, Repr

/-- Embedding of `runJobgroupArchivist`: validate all jobs (first failure
throws), return a stub under `DRY_RUN`, otherwise derive the tenant from the
first job, load the 50 most recent jobgroups of the tenant, reject when any
is in an active status or when 5 or more were created within the last 24
hours, and only then perform the downstream submission steps. -/
def runJobgroupArchivist (dryRun : Bool) (now : Int)
    (rows : List TenantJobgroup) (jobs : List Job) :
    Except String SubmissionOk × SubmissionEffects :=
  match jobs.findSome? (fun j =>
    match validateArchivistJob j with
    | .error e => some e
    | .ok _ => none) with
  | some e => (.error ("ValidationError: " ++ e.message), noSubmissionEffects)
  | none =>
    if dryRun then (.ok ⟨true, jobs.length⟩, noSubmissionEffects)
    else
      match jobs with
      | [] => (.error "TypeError: cannot read tenant_id of undefined",
          noSubmissionEffects)
      | j0 :: _ =>
        let recent := getRecentJobgroupsForTenant rows (j0.tenant_id.getD "")
        let active := recent.filter
          (fun r => decide (r.status ∈ activeStatusSet))
        if 1 ≤ active.length then
          (.error "Too many jobgroups in progress. Please wait.",
            noSubmissionEffects)
        else
          let last24 := recent.filter
            (fun r => decide (now - r.created_at < 86400000))
          if 5 ≤ last24.length then
            (.error "Rate limit: max 5 jobgroups in 24h reached",
              noSubmissionEffects)
          else
            (.ok ⟨false, jobs.length⟩, ⟨true, true, true, true⟩)

theorem findSome?_none_of_all {α β : Type} (f : α → Option β) :
    ∀ l : List α, (∀ x ∈ l, f x = none) → l.findSome? f = none := by
  intro l h
  induction l with
  | nil => rfl
  | cons a t ih =>
    rw [List.findSome?_cons, h a (List.mem_cons_self a t)]
    exact ih (fun x hx => h x (List.mem_cons_of_mem a hx))

/-- Valid archivist job for the throttle scenarios. -/
def c7Job : Job :=
  { tenant_id := some "11111111-1111-4111-8111-111111111111",
    asset_id := some "22222222-2222-4222-8222-222222222222",
    processing_type := some "instant" }

/-- Fifty completed jobgroups newer than one still-active jobgroup, all for
the same tenant; none created within the last 24 hours of `c7Now`. -/
def c7Rows : List TenantJobgroup :=
  ⟨"11111111-1111-4111-8111-111111111111", "in_progress", 0⟩ ::
    (List.range 50).map (fun i =>
      ⟨"11111111-1111-4111-8111-111111111111", "completed", (i : Int) + 1⟩)

/-- Reference time for the throttle scenarios. -/
def c7Now : Int := 1000000000

/-- Claim C7 (counterexample): the tenant has a jobgroup in the non-terminal
state `in_progress`, yet the submission succeeds with all downstream side
effects, because the active-jobgroup check only inspects the tenant's 50
most recent rows and the active one is older than 50 completed rows. -/
theorem c7_counterexample :
    (⟨"11111111-1111-4111-8111-111111111111", "in_progress", 0⟩ :
        TenantJobgroup) ∈ c7Rows ∧
    "in_progress" ∈ activeStatusSet ∧
    runJobgroupArchivist false c7Now c7Rows [c7Job] =
      (.ok ⟨false, 1⟩, ⟨true, true, true, true⟩) := by
  refine ⟨by decide, by decide, rfl⟩

/-- Claim C7 (amended): with `DRY_RUN` off and a nonempty list of valid jobs,
submission is throttled against the tenant's 50 most recent jobgroups only:
it rejects when any of those has a status in
`{queued, in_progress, validating, created}`, and otherwise rejects when 5
or more of those were created within the last 24 hours; on either rejection
no JSONL file is assembled, no file is uploaded, no external jobgroup is
created and no jobgroup row is persisted. -/
theorem c7_amended_throttle (rows : List TenantJobgroup) (j0 : Job)
    (rest : List Job) (now : Int)
    (hvalid : ∀ j ∈ j0 :: rest, ∃ j2, validateArchivistJob j = .ok j2) :
    ((∃ r ∈ getRecentJobgroupsForTenant rows (j0.tenant_id.getD ""),
        r.status ∈ activeStatusSet) →
      runJobgroupArchivist false now rows (j0 :: rest) =
        (.error "Too many jobgroups in progress. Please wait.",
          noSubmissionEffects)) ∧
    ((¬ ∃ r ∈ getRecentJobgroupsForTenant rows (j0.tenant_id.getD ""),
        r.status ∈ activeStatusSet) →
      5 ≤ ((getRecentJobgroupsForTenant rows (j0.tenant_id.getD "")).filter
        (fun r => decide (now - r.created_at < 86400000))).length →
      runJobgroupArchivist false now rows (j0 :: rest) =
        (.error "Rate limit: max 5 jobgroups in 24h reached",
          noSubmissionEffects)) := by
  have hfind : (j0 :: rest).findSome? (fun j =>
      match validateArchivistJob j with
      | .error e => some e
      | .ok _ => none) = none := by
    refine findSome?_none_of_all _ _ (fun j hj => ?_)
    obtain ⟨j2, hj2⟩ := hvalid j hj
    rw [hj2]
  constructor
  · rintro ⟨r, hr, hst⟩
    unfold runJobgroupArchivist
    rw [hfind]
    simp only [Bool.false_eq_true, if_false]
    have hmem : r ∈ (getRecentJobgroupsForTenant rows
        (j0.tenant_id.getD "")).filter
        (fun r => decide (r.status ∈ activeStatusSet)) :=
      List.mem_filter.mpr ⟨hr, by simpa using hst⟩
    have hlen : 1 ≤ ((getRecentJobgroupsForTenant rows
        (j0.tenant_id.getD "")).filter
        (fun r => decide (r.status ∈ activeStatusSet))).length :=
      List.length_pos.mpr (List.ne_nil_of_mem hmem)
    rw [if_pos hlen]
  · intro hact h24
    unfold runJobgroupArchivist
    rw [hfind]
    simp only [Bool.false_eq_true, if_false]
    have hlen : ¬ 1 ≤ ((getRecentJobgroupsForTenant rows
        (j0.tenant_id.getD "")).filter
        (fun r => decide (r.status ∈ activeStatusSet))).length := by
      intro hc
      obtain ⟨r, hr⟩ := List.exists_mem_of_length_pos hc
      obtain ⟨hr1, hr2⟩ := List.mem_filter.mp hr
      exact hact ⟨r, hr1, by simpa using hr2⟩
    rw [if_neg hlen, if_pos h24]

/-- Witness for `c7_amended_throttle`: one recent active jobgroup causes the
rejection. -/
theorem c7_amended_throttle_witness :
    ((∃ r ∈ getRecentJobgroupsForTenant
        [⟨"11111111-1111-4111-8111-111111111111", "in_progress", 500⟩]
        (c7Job.tenant_id.getD ""),
        r.status ∈ activeStatusSet) →
      runJobgroupArchivist false c7Now
        [⟨"11111111-1111-4111-8111-111111111111", "in_progress", 500⟩]
        (c7Job :: []) =
        (.error "Too many jobgroups in progress. Please wait.",
          noSubmissionEffects)) ∧
    ((¬ ∃ r ∈ getRecentJobgroupsForTenant
        [⟨"11111111-1111-4111-8111-111111111111", "in_progress", 500⟩]
        (c7Job.tenant_id.getD ""),
        r.status ∈ activeStatusSet) →
      5 ≤ ((getRecentJobgroupsForTenant
        [⟨"11111111-1111-4111-8111-111111111111", "in_progress", 500⟩]
        (c7Job.tenant_id.getD "")).filter
        (fun r => decide (c7Now - r.created_at < 86400000))).length →
      runJobgroupArchivist false c7Now
        [⟨"11111111-1111-4111-8111-111111111111", "in_progress", 500⟩]
        (c7Job :: []) =
        (.error "Rate limit: max 5 jobgroups in 24h reached",
          noSubmissionEffects)) :=
  c7_amended_throttle
    [⟨"11111111-1111-4111-8111-111111111111", "in_progress", 500⟩]
    c7Job [] c7Now
    (fun j hj => by
      rw [List.mem_singleton] at hj
      subst hj
      exact ⟨c7Job, rfl⟩)

end Relicxs
